import Mathlib

/-!
Formal model of the `.dat` decoders in `ExtractDat.py` and `RecoverDat.py`
(jhh67/extractdat).

A file is modelled as a list of bytes; all multi-byte reads are 32-bit
little-endian words, mirroring `struct.unpack("<I", ...)`.  Python's
unbounded `while True:` loops are modelled as structurally recursive
functions with an explicit fuel argument; the outer `Option` is `none`
exactly when the fuel runs out (a sufficiency theorem shows the chosen
fuel always suffices, i.e. the loops terminate).  Python exceptions are
modelled with `Except` over the error type `DatErr`.  Python floats are
modelled by exact rationals: every float value produced by the decoders
is of the form `a / 2 ^ 18` or `a / b / 2 ^ 18`, and the claims under
study never depend on rounding.
-/

/-- `struct.unpack("<I", fd.read(4))`: a 32-bit little-endian word at byte
position `pos`; `none` models the `struct.error` raised on a short read. -/
def readWord (file : List Nat) (pos : Nat) : Option Nat :=
  match file.get? pos, file.get? (pos+1), file.get? (pos+2), file.get? (pos+3) with
  | some b0, some b1, some b2, some b3 =>
      some (b0 + 256 * b1 + 65536 * b2 + 16777216 * b3)
  | _, _, _, _ => none

/-- `struct.unpack("<%dI" % n, fd.read(4*n))`: `n` consecutive words. -/
def readWords (file : List Nat) : Nat → Nat → Option (List Nat)
  | _, 0 => some []
  | pos, n+1 =>
    match readWord file pos, readWords file (pos+4) (n) with
    | some w, some ws => some (w :: ws)
    | _, _ => none

-- Tag ("key") constants, from the sources.
def KEY_EOS : Nat := 0xF
def KEY_EOM : Nat := 0x8
def KEY_BSCAN : Nat := 0xC
def KEY_B : Nat := 0xB
def KEY_VOLT : Nat := 0x4
def KEY_TIME : Nat := 0x3
def KEY_MASS : Nat := 0x2
def KEY_DATA : Nat := 0x1

def DATA_ANALOG : Nat := 0x0
def DATA_PULSE : Nat := 0x1
def DATA_FARADAY : Nat := 0x8

-- Scan-header word indices, from the sources.
def SCAN_NUMBER : Nat := 9
def SCAN_DELTA : Nat := 7
def SCAN_ACF : Nat := 12
def SCAN_TIME : Nat := 19
def SCAN_EDAC : Nat := 31

/-- `SCAN_FCF` in `ExtractDat.py` (indexed mode, format revision A). -/
def EXTRACT_SCAN_FCF : Nat := 35

/-- `SCAN_FCF` in `RecoverDat.py` (recovery mode, format revision B). -/
def RECOVER_SCAN_FCF : Nat := 34

-- File-header word indices, from the sources.
def HDR_INDEX_OFFSET : Nat := 33
def HDR_INDEX_LEN : Nat := 39
def HDR_TIMESTAMP : Nat := 40
def HDR_NUM_FIELDS : Nat := 85

/-- The exceptions the decoders can raise.  `eos` is the `EOS` control
signal; `alreadySet nm` is the plain `Exception(nm + " is already set")`
raised by `Mass._SetAttr`; `shortRead` is `struct.error` from a read past
end-of-file; `outOfRange` is the `IndexError` of `DatFile.GetScan`;
`zeroDivision` is the `ZeroDivisionError` raised by the
accelerating-voltage formula when the 28-bit value is 0. -/
inductive DatErr where
  | eos : DatErr
  | zeroDivision : DatErr
  | unknownKey (code : Nat) : DatErr
  | unknownDataType (code : Nat) : DatErr
  | alreadySet (name : String) : DatErr
  | invalidScanHeader : DatErr
  | shortRead : DatErr
  | outOfRange : DatErr
deriving DecidableEq

/-- `key = (tmp & 0xF0000000) >> 28` (both sources, `Mass.__init__`). -/
def decodeKey (tmp : Nat) : Nat := (tmp &&& 0xF0000000) >>> 28

/-- `value = tmp & 0x0FFFFFFF` (both sources, `Mass.__init__`). -/
def decodeValue (tmp : Nat) : Nat := tmp &&& 0x0FFFFFFF

/-- `flag = (value & 0x0F000000) >> 24` for a DATA record. -/
def dataFlag (value : Nat) : Nat := (value &&& 0x0F000000) >>> 24

/-- `dataType = (value & 0x00F00000) >> 20` for a DATA record. -/
def dataTypeOf (value : Nat) : Nat := (value &&& 0x00F00000) >>> 20

/-- `exp = (value & 0x000F0000) >> 16` for a DATA record. -/
def dataExp (value : Nat) : Nat := (value &&& 0x000F0000) >>> 16

/-- `value & 0x0000FFFF`, the 16-bit magnitude of a DATA record. -/
def dataMag (value : Nat) : Nat := value &&& 0x0000FFFF

/-- `value = value << exp; if flag != 0: value = -value` — the signed
measurement stored for a DATA record (the source repeats this computation
verbatim in the analog, pulse and faraday branches). -/
def dataSigned (value : Nat) : Int :=
  if dataFlag value ≠ 0 then -((dataMag value <<< dataExp value : Nat) : Int)
  else ((dataMag value <<< dataExp value : Nat) : Int)

/-- The state of one `Mass` object under construction (`Mass.__init__`). -/
structure MassR where
  magnetMass : Option Rat := none
  acceleratingVoltage : Option Rat := none
  channelTime : Option Nat := none
  duration : Option Nat := none
  analog : List Int := []
  pulse : List Int := []
  faraday : List Int := []
  size : Nat := 0
deriving DecidableEq

/-- The `while True:` loop of `Mass.__init__` (identical in both sources).
`off` is the offset the Mass started at (for `size`), `pos` the current
cursor, `m` the partially built Mass.  On success returns the finished
Mass together with the cursor position after the end-of-mass word. -/
def massLoop (file : List Nat) (edac : Nat) (off : Nat) :
    Nat → Nat → MassR → Option (Except DatErr (MassR × Nat))
  | 0, _, _ => none
  | fuel+1, pos, m =>
    match readWord file pos with
    | none => some (.error .shortRead)
    | some tmp =>
      let key := decodeKey tmp
      let value := decodeValue tmp
      if key = KEY_EOS then some (.error .eos)
      else if key = KEY_EOM then
        match m.duration with
        | some _ => some (.error (.alreadySet "duration"))
        | none => some (.ok ({ m with duration := some value, size := pos + 4 - off }, pos + 4))
      else if key = KEY_BSCAN then massLoop file edac off fuel (pos+4) m
      else if key = KEY_B then massLoop file edac off fuel (pos+4) m
      else if key = KEY_VOLT then
        if value = 0 then some (.error .zeroDivision)
        else
          massLoop file edac off fuel (pos+4)
            { m with acceleratingVoltage := some ((edac * 1000 : Rat) / (value : Rat) / 2 ^ 18) }
      else if key = KEY_TIME then
        match m.channelTime with
        | some _ => some (.error (.alreadySet "channelTime"))
        | none => massLoop file edac off fuel (pos+4) { m with channelTime := some value }
      else if key = KEY_MASS then
        massLoop file edac off fuel (pos+4) { m with magnetMass := some ((value : Rat) / 2 ^ 18) }
      else if key = KEY_DATA then
        if dataTypeOf value = DATA_ANALOG then
          massLoop file edac off fuel (pos+4) { m with analog := m.analog ++ [dataSigned value] }
        else if dataTypeOf value = DATA_PULSE then
          massLoop file edac off fuel (pos+4) { m with pulse := m.pulse ++ [dataSigned value] }
        else if dataTypeOf value = DATA_FARADAY then
          massLoop file edac off fuel (pos+4) { m with faraday := m.faraday ++ [dataSigned value] }
        else some (.error (.unknownDataType (dataTypeOf value)))
      else some (.error (.unknownKey key))

/-- `Mass.__init__`: decode one Mass starting at byte `offset`. -/
def massInit (file : List Nat) (edac : Nat) (offset : Nat) (fuel : Nat) :
    Option (Except DatErr (MassR × Nat)) :=
  massLoop file edac offset fuel offset {}

/-- One decoded `Scan` header.  In indexed mode `offset` is the position of
the first mass (header start + 188); in recovery mode it is the header
start (`dat.fd.tell()` before the read), mirroring the two sources. -/
structure ScanR where
  number : Nat
  delta : Nat
  acf : Nat
  time : Nat
  fcf : Nat
  edac : Nat
  offset : Nat
deriving DecidableEq

/-- `Scan.__init__` of `ExtractDat.py`: reads the 47-word header at
`offset` with no validation; `fcfIdx` is the (format-revision-dependent)
`SCAN_FCF` word index.  Returns the scan and the cursor after the header. -/
def scanInitIndexed (file : List Nat) (offset : Nat) (fcfIdx : Nat) :
    Except DatErr (ScanR × Nat) :=
  match readWords file offset 47 with
  | none => .error .shortRead
  | some vals =>
    .ok ({ number := vals.getD SCAN_NUMBER 0
         , delta := vals.getD SCAN_DELTA 0
         , acf := vals.getD SCAN_ACF 0
         , time := vals.getD SCAN_TIME 0
         , fcf := vals.getD fcfIdx 0
         , edac := vals.getD SCAN_EDAC 0
         , offset := offset + 47 * 4 }, offset + 47 * 4)

/-- The body of `Scan.__init__` of `RecoverDat.py` after the header words
have been read: magic-triplet check at word indices 3..5, then the
scan-number check against the caller-supplied expected `number`. -/
def scanHeaderRecovery (vals : List Nat) (number : Nat) (pos : Nat) (fcfIdx : Nat) :
    Except DatErr (ScanR × Nat) :=
  if ¬(vals.getD 3 0 = 0xD ∧ vals.getD 4 0 = 0xE ∧ vals.getD 5 0 = 0xF) then
    .error .invalidScanHeader
  else if vals.getD SCAN_NUMBER 0 ≠ number then .error .invalidScanHeader
  else
    .ok ({ number := vals.getD SCAN_NUMBER 0
         , delta := vals.getD SCAN_DELTA 0
         , acf := vals.getD SCAN_ACF 0
         , time := vals.getD SCAN_TIME 0
         , fcf := vals.getD fcfIdx 0
         , edac := vals.getD SCAN_EDAC 0
         , offset := pos }, pos + 47 * 4)

/-- `Scan.__init__` of `RecoverDat.py`: reads one 47-word header at the
current cursor `pos` and validates it. -/
def scanInitRecovery (file : List Nat) (pos : Nat) (number : Nat) (fcfIdx : Nat) :
    Except DatErr (ScanR × Nat) :=
  match readWords file pos 47 with
  | none => .error .shortRead
  | some vals => scanHeaderRecovery vals number pos fcfIdx

/-- Python sequence indexing `t[i]` for `int` `i` (negative indices wrap;
out-of-bounds is `none`, i.e. `IndexError`). -/
def pyGet (l : List Nat) (i : Int) : Option Nat :=
  if 0 ≤ i then l.get? i.toNat
  else if 0 ≤ i + l.length then l.get? (i + l.length).toNat
  else none

/-- `DatFile.GetScan` of `ExtractDat.py`: bounds check `index >= len(offsets)`
then `Scan(self, self._offsets[index])`. -/
def getScanIndexed (file : List Nat) (offsets : List Nat) (index : Int) (fcfIdx : Nat) :
    Except DatErr (ScanR × Nat) :=
  if (offsets.length : Int) ≤ index then .error .outOfRange
  else
    match pyGet offsets index with
    | none => .error .outOfRange
    | some off => scanInitIndexed file off fcfIdx

/-- `DatFileIterator` of `ExtractDat.py`, iterated to exhaustion starting
at scan index `i`; `cnt` is the number of indices left (`NumScans() - i`).
A `Scan` construction failure propagates out of the iteration. -/
def idxIterLoop (file : List Nat) (offsets : List Nat) (fcfIdx : Nat) :
    Nat → Nat → Except DatErr (List ScanR)
  | _, 0 => .ok []
  | i, cnt+1 =>
    match getScanIndexed file offsets (i : Int) fcfIdx with
    | .error e => .error e
    | .ok (s, _) =>
      match idxIterLoop file offsets fcfIdx (i+1) cnt with
      | .error e => .error e
      | .ok l => .ok (s :: l)

/-- Iterating a `DatFile` in indexed mode: scans `0 .. NumScans()-1`. -/
def idxIter (file : List Nat) (offsets : List Nat) (fcfIdx : Nat) :
    Except DatErr (List ScanR) :=
  idxIterLoop file offsets fcfIdx 0 offsets.length

/-- The `while found is False:` loop of `DatFile.GetScan` in
`RecoverDat.py`: record the cursor, try a Scan header with the expected
`number`; on `InvalidScanHeader` seek to the recorded position + 1 and
retry; on any other exception return `None` (inner `none`); on success
return the scan and the cursor after its header. -/
def getScanLoop (file : List Nat) (number : Nat) (fcfIdx : Nat) :
    Nat → Nat → Option (Option (ScanR × Nat))
  | 0, _ => none
  | fuel+1, pos =>
    match scanInitRecovery file pos number fcfIdx with
    | .ok sp => some (some sp)
    | .error .invalidScanHeader => getScanLoop file number fcfIdx fuel (pos+1)
    | .error _ => some none

/-- `DatFileIterator` of `RecoverDat.py`, iterated to exhaustion: expected
scan number `index` (starting at 1), searching from cursor `pos`; stops
cleanly when `GetScan` returns `None`. -/
def datIterLoop (file : List Nat) (fcfIdx : Nat) :
    Nat → Nat → Nat → Option (List ScanR)
  | 0, _, _ => none
  | fuel+1, pos, index =>
    match getScanLoop file index fcfIdx (file.length + 1) pos with
    | none => none
    | some none => some []
    | some (some (s, pos')) =>
      match datIterLoop file fcfIdx fuel pos' (index+1) with
      | none => none
      | some l => some (s :: l)

/-- The fields `DatFile.__init__` extracts from the file header. -/
structure DatFileR where
  timestamp : Nat
  indexLen : Nat
  indexOffset : Nat
  offsets : List Nat
  endOfHeader : Nat
deriving DecidableEq

/-- `DatFile.__init__` (both sources): seek to 0x10, read 85 words, then
read the `indexLen` scan offsets starting 4 bytes past `indexOffset`. -/
def datFileInit (file : List Nat) : Except DatErr DatFileR :=
  match readWords file 0x10 HDR_NUM_FIELDS with
  | none => .error .shortRead
  | some vals =>
    match readWords file (vals.getD HDR_INDEX_OFFSET 0 + 4) (vals.getD HDR_INDEX_LEN 0) with
    | none => .error .shortRead
    | some offs =>
      .ok { timestamp := vals.getD HDR_TIMESTAMP 0
          , indexLen := vals.getD HDR_INDEX_LEN 0
          , indexOffset := vals.getD HDR_INDEX_OFFSET 0
          , offsets := offs
          , endOfHeader := 0x10 + HDR_NUM_FIELDS * 4 }

/-- Recovery-mode traversal of a whole file: `Open` seeks to
`endOfHeader` and the iterator starts with expected scan number 1. -/
def recoverScans (file : List Nat) (fuel : Nat) : Option (Except DatErr (List ScanR)) :=
  match datFileInit file with
  | .error e => some (.error e)
  | .ok dat =>
    match datIterLoop file RECOVER_SCAN_FCF fuel dat.endOfHeader 1 with
    | none => none
    | some l => some (.ok l)

/-- `ScanIterator` iterated to exhaustion: decode masses one after the
other from byte `pos` on; `Scan.GetMass` turns the `EOS` signal into
`None`, ending the mass sequence cleanly; other errors propagate. -/
def scanMasses (file : List Nat) (edac : Nat) :
    Nat → Nat → Option (Except DatErr (List MassR))
  | 0, _ => none
  | fuel+1, pos =>
    match massInit file edac pos (file.length + 1) with
    | none => none
    | some (.error .eos) => some (.ok [])
    | some (.error e) => some (.error e)
    | some (.ok (m, pos')) =>
      match scanMasses file edac fuel pos' with
      | none => none
      | some (.error e) => some (.error e)
      | some (.ok l) => some (.ok (m :: l))

/-- The per-scan loop of `main` in `ExtractDat.py` (lines 368-398): for each
scan index, build the Scan, iterate its masses; `UnknownDataType` and
`UnknownKey` are caught and skip the current scan (`continue`); every
other exception propagates and aborts the whole traversal. -/
def mainLoop (file : List Nat) (offsets : List Nat) (fcfIdx : Nat) :
    Nat → Nat → Option (Except DatErr (List (ScanR × List MassR)))
  | _, 0 => some (.ok [])
  | i, cnt+1 =>
    match getScanIndexed file offsets (i : Int) fcfIdx with
    | .error e => some (.error e)
    | .ok (s, _) =>
      match scanMasses file s.edac (file.length + 1) s.offset with
      | none => none
      | some (.error (.unknownKey _)) => mainLoop file offsets fcfIdx (i+1) cnt
      | some (.error (.unknownDataType _)) => mainLoop file offsets fcfIdx (i+1) cnt
      | some (.error e) => some (.error e)
      | some (.ok ms) =>
        match mainLoop file offsets fcfIdx (i+1) cnt with
        | none => none
        | some (.error e) => some (.error e)
        | some (.ok rest) => some (.ok ((s, ms) :: rest))

/-- Processing one indexed `.dat` file in `main`. -/
def processDat (file : List Nat) (offsets : List Nat) (fcfIdx : Nat) :
    Option (Except DatErr (List (ScanR × List MassR))) :=
  mainLoop file offsets fcfIdx 0 offsets.length

/-- Little-endian serialization of 32-bit words, used to build concrete
test files. -/
def bytesOfWords (ws : List Nat) : List Nat :=
  ws.flatMap (fun w => [w % 256, w / 256 % 256, w / 65536 % 256, w / 16777216 % 256])

deriving instance DecidableEq for Except

/-! ## Basic facts about the read primitives -/

theorem readWord_some_lt {file : List Nat} {pos w : Nat}
    (h : readWord file pos = some w) : pos + 3 < file.length := by
  unfold readWord at h
  cases h0 : file.get? pos with
  | none => rw [h0] at h; exact absurd h (by simp)
  | some b0 =>
    cases h1 : file.get? (pos+1) with
    | none => rw [h0, h1] at h; exact absurd h (by simp)
    | some b1 =>
      cases h2 : file.get? (pos+2) with
      | none => rw [h0, h1, h2] at h; exact absurd h (by simp)
      | some b2 =>
        cases h3 : file.get? (pos+3) with
        | none => rw [h0, h1, h2, h3] at h; exact absurd h (by simp)
        | some b3 =>
          have := List.get?_eq_some.mp h3
          exact this.1

theorem readWord_none_of_le {file : List Nat} {pos : Nat}
    (h : file.length ≤ pos) : readWord file pos = none := by
  unfold readWord
  have h0 : file.get? pos = none := List.get?_eq_none.mpr h
  rw [h0]

theorem readWords_length {file : List Nat} :
    ∀ {n pos : Nat} {vals : List Nat}, readWords file pos n = some vals → vals.length = n := by
  intro n
  induction n with
  | zero => intro pos vals h; unfold readWords at h; simp at h; simp [← h]
  | succ k ih =>
    intro pos vals h
    unfold readWords at h
    cases hw : readWord file pos with
    | none => rw [hw] at h; exact absurd h (by simp)
    | some w =>
      cases hws : readWords file (pos+4) k with
      | none => rw [hw, hws] at h; exact absurd h (by simp)
      | some ws =>
        rw [hw, hws] at h
        simp at h
        simp [← h, ih hws]

/-! ## Bit-level decomposition lemmas for the Record Tag Decoder -/

theorem and_shift_nibble (v s : Nat) : (v &&& (0xF <<< s)) >>> s = (v >>> s) &&& 0xF := by
  apply Nat.eq_of_testBit_eq
  intro i
  simp [Nat.testBit_shiftRight, Nat.testBit_and, Nat.testBit_shiftLeft,
    Nat.le_add_right, Nat.add_sub_cancel_left]

theorem and_nibble_of_lt {x : Nat} (h : x < 16) : x &&& 0xF = x := by
  have h4 : (0xF : Nat) = 2 ^ 4 - 1 := by norm_num
  rw [h4]
  exact Nat.and_pow_two_sub_one_of_lt_two_pow (by norm_num at h ⊢; omega)

theorem decodeKey_eq_shift {w : Nat} (hw : w < 2 ^ 32) : decodeKey w = w >>> 28 := by
  have hmask : (0xF0000000 : Nat) = 0xF <<< 28 := by decide
  rw [decodeKey, hmask, and_shift_nibble]
  apply and_nibble_of_lt
  rw [Nat.shiftRight_eq_div_pow]
  have : w < 16 * 2 ^ 28 := by norm_num at hw ⊢; omega
  omega

theorem dataFlag_eq_shift (v : Nat) : dataFlag v = (v >>> 24) &&& 0xF := by
  have hmask : (0x0F000000 : Nat) = 0xF <<< 24 := by decide
  rw [dataFlag, hmask, and_shift_nibble]

theorem dataTypeOf_eq_shift (v : Nat) : dataTypeOf v = (v >>> 20) &&& 0xF := by
  have hmask : (0x00F00000 : Nat) = 0xF <<< 20 := by decide
  rw [dataTypeOf, hmask, and_shift_nibble]

theorem dataExp_eq_shift (v : Nat) : dataExp v = (v >>> 16) &&& 0xF := by
  have hmask : (0x000F0000 : Nat) = 0xF <<< 16 := by decide
  rw [dataExp, hmask, and_shift_nibble]

theorem dataSigned_eq (v : Nat) :
    dataSigned v =
      if dataFlag v ≠ 0 then -((dataMag v * 2 ^ dataExp v : Nat) : Int)
      else ((dataMag v * 2 ^ dataExp v : Nat) : Int) := by
  rw [dataSigned, Nat.shiftLeft_eq]

theorem dataMag_lt (v : Nat) : dataMag v < 2 ^ 16 := by
  have : dataMag v ≤ 0xFFFF := Nat.and_le_right
  norm_num at this ⊢
  omega

theorem dataExp_le (v : Nat) : dataExp v ≤ 15 := by
  rw [dataExp_eq_shift]
  have : (v >>> 16) &&& 0xF ≤ 0xF := Nat.and_le_right
  norm_num at this ⊢
  omega

theorem dataSigned_natAbs_le (v : Nat) : (dataSigned v).natAbs ≤ (2 ^ 16 - 1) * 2 ^ 15 := by
  have hle : dataMag v <<< dataExp v ≤ (2 ^ 16 - 1) * 2 ^ 15 := by
    rw [Nat.shiftLeft_eq]
    have h1 : dataMag v ≤ 2 ^ 16 - 1 := by have := dataMag_lt v; omega
    have h2 : (2 : Nat) ^ dataExp v ≤ 2 ^ 15 := Nat.pow_le_pow_right (by norm_num) (dataExp_le v)
    exact Nat.mul_le_mul h1 h2
  rw [dataSigned]
  split
  · simpa using hle
  · simpa using hle

/-! ## Single-step behaviour of the Mass decoder loop -/

theorem massLoop_step_eos {file : List Nat} {edac off fuel pos : Nat} {m : MassR} {w : Nat}
    (hw : readWord file pos = some w) (hk : decodeKey w = KEY_EOS) :
    massLoop file edac off (fuel+1) pos m = some (.error .eos) := by
  simp [massLoop, hw, hk]

theorem massLoop_step_eom_fresh {file : List Nat} {edac off fuel pos : Nat} {m : MassR} {w : Nat}
    (hw : readWord file pos = some w) (hk : decodeKey w = KEY_EOM) (hd : m.duration = none) :
    massLoop file edac off (fuel+1) pos m =
      some (.ok ({ m with duration := some (decodeValue w), size := pos + 4 - off }, pos + 4)) := by
  simp [massLoop, hw, hk, hd, KEY_EOS, KEY_EOM]

theorem massLoop_step_eom_dup {file : List Nat} {edac off fuel pos : Nat} {m : MassR} {w d : Nat}
    (hw : readWord file pos = some w) (hk : decodeKey w = KEY_EOM) (hd : m.duration = some d) :
    massLoop file edac off (fuel+1) pos m = some (.error (.alreadySet "duration")) := by
  simp [massLoop, hw, hk, hd, KEY_EOS, KEY_EOM]

theorem massLoop_step_volt {file : List Nat} {edac off fuel pos : Nat} {m : MassR} {w : Nat}
    (hw : readWord file pos = some w) (hk : decodeKey w = KEY_VOLT)
    (hv : decodeValue w ≠ 0) :
    massLoop file edac off (fuel+1) pos m =
      massLoop file edac off fuel (pos+4)
        { m with acceleratingVoltage := some ((edac * 1000 : Rat) / (decodeValue w : Rat) / 2 ^ 18) } := by
  simp [massLoop, hw, hk, hv, KEY_EOS, KEY_EOM, KEY_BSCAN, KEY_B, KEY_VOLT]

theorem massLoop_step_volt_zero {file : List Nat} {edac off fuel pos : Nat} {m : MassR}
    {w : Nat} (hw : readWord file pos = some w) (hk : decodeKey w = KEY_VOLT)
    (hv : decodeValue w = 0) :
    massLoop file edac off (fuel+1) pos m = some (.error .zeroDivision) := by
  simp [massLoop, hw, hk, hv, KEY_EOS, KEY_EOM, KEY_BSCAN, KEY_B, KEY_VOLT]

theorem massLoop_step_time_fresh {file : List Nat} {edac off fuel pos : Nat} {m : MassR} {w : Nat}
    (hw : readWord file pos = some w) (hk : decodeKey w = KEY_TIME) (hc : m.channelTime = none) :
    massLoop file edac off (fuel+1) pos m =
      massLoop file edac off fuel (pos+4) { m with channelTime := some (decodeValue w) } := by
  simp [massLoop, hw, hk, hc, KEY_EOS, KEY_EOM, KEY_BSCAN, KEY_B, KEY_VOLT, KEY_TIME]

theorem massLoop_step_time_dup {file : List Nat} {edac off fuel pos : Nat} {m : MassR} {w c : Nat}
    (hw : readWord file pos = some w) (hk : decodeKey w = KEY_TIME) (hc : m.channelTime = some c) :
    massLoop file edac off (fuel+1) pos m = some (.error (.alreadySet "channelTime")) := by
  simp [massLoop, hw, hk, hc, KEY_EOS, KEY_EOM, KEY_BSCAN, KEY_B, KEY_VOLT, KEY_TIME]

theorem massLoop_step_mass {file : List Nat} {edac off fuel pos : Nat} {m : MassR} {w : Nat}
    (hw : readWord file pos = some w) (hk : decodeKey w = KEY_MASS) :
    massLoop file edac off (fuel+1) pos m =
      massLoop file edac off fuel (pos+4)
        { m with magnetMass := some ((decodeValue w : Rat) / 2 ^ 18) } := by
  simp [massLoop, hw, hk, KEY_EOS, KEY_EOM, KEY_BSCAN, KEY_B, KEY_VOLT, KEY_TIME, KEY_MASS]

theorem massLoop_step_data_analog {file : List Nat} {edac off fuel pos : Nat} {m : MassR} {w : Nat}
    (hw : readWord file pos = some w) (hk : decodeKey w = KEY_DATA)
    (ht : dataTypeOf (decodeValue w) = DATA_ANALOG) :
    massLoop file edac off (fuel+1) pos m =
      massLoop file edac off fuel (pos+4)
        { m with analog := m.analog ++ [dataSigned (decodeValue w)] } := by
  simp [massLoop, hw, hk, ht, KEY_EOS, KEY_EOM, KEY_BSCAN, KEY_B, KEY_VOLT, KEY_TIME,
    KEY_MASS, KEY_DATA, DATA_ANALOG]

theorem massLoop_step_bscan {file : List Nat} {edac off fuel pos : Nat} {m : MassR} {w : Nat}
    (hw : readWord file pos = some w) (hk : decodeKey w = KEY_BSCAN) :
    massLoop file edac off (fuel+1) pos m = massLoop file edac off fuel (pos+4) m := by
  simp [massLoop, hw, hk, KEY_EOS, KEY_EOM, KEY_BSCAN]

theorem massLoop_step_b {file : List Nat} {edac off fuel pos : Nat} {m : MassR} {w : Nat}
    (hw : readWord file pos = some w) (hk : decodeKey w = KEY_B) :
    massLoop file edac off (fuel+1) pos m = massLoop file edac off fuel (pos+4) m := by
  simp [massLoop, hw, hk, KEY_EOS, KEY_EOM, KEY_BSCAN, KEY_B]

theorem massLoop_step_data_pulse {file : List Nat} {edac off fuel pos : Nat} {m : MassR} {w : Nat}
    (hw : readWord file pos = some w) (hk : decodeKey w = KEY_DATA)
    (ht : dataTypeOf (decodeValue w) = DATA_PULSE) :
    massLoop file edac off (fuel+1) pos m =
      massLoop file edac off fuel (pos+4)
        { m with pulse := m.pulse ++ [dataSigned (decodeValue w)] } := by
  simp [massLoop, hw, hk, ht, KEY_EOS, KEY_EOM, KEY_BSCAN, KEY_B, KEY_VOLT, KEY_TIME,
    KEY_MASS, KEY_DATA, DATA_ANALOG, DATA_PULSE]

theorem massLoop_step_data_faraday {file : List Nat} {edac off fuel pos : Nat} {m : MassR} {w : Nat}
    (hw : readWord file pos = some w) (hk : decodeKey w = KEY_DATA)
    (ht : dataTypeOf (decodeValue w) = DATA_FARADAY) :
    massLoop file edac off (fuel+1) pos m =
      massLoop file edac off fuel (pos+4)
        { m with faraday := m.faraday ++ [dataSigned (decodeValue w)] } := by
  simp [massLoop, hw, hk, ht, KEY_EOS, KEY_EOM, KEY_BSCAN, KEY_B, KEY_VOLT, KEY_TIME,
    KEY_MASS, KEY_DATA, DATA_ANALOG, DATA_PULSE, DATA_FARADAY]

theorem massLoop_step_data_unknown {file : List Nat} {edac off fuel pos : Nat} {m : MassR} {w : Nat}
    (hw : readWord file pos = some w) (hk : decodeKey w = KEY_DATA)
    (h0 : dataTypeOf (decodeValue w) ≠ DATA_ANALOG)
    (h1 : dataTypeOf (decodeValue w) ≠ DATA_PULSE)
    (h8 : dataTypeOf (decodeValue w) ≠ DATA_FARADAY) :
    massLoop file edac off (fuel+1) pos m =
      some (.error (.unknownDataType (dataTypeOf (decodeValue w)))) := by
  simp [massLoop, hw, hk, h0, h1, h8, KEY_EOS, KEY_EOM, KEY_BSCAN, KEY_B, KEY_VOLT, KEY_TIME,
    KEY_MASS, KEY_DATA]

theorem massLoop_step_unknown {file : List Nat} {edac off fuel pos : Nat} {m : MassR} {w : Nat}
    (hw : readWord file pos = some w)
    (hEOS : decodeKey w ≠ KEY_EOS) (hEOM : decodeKey w ≠ KEY_EOM)
    (hBSCAN : decodeKey w ≠ KEY_BSCAN) (hB : decodeKey w ≠ KEY_B)
    (hVOLT : decodeKey w ≠ KEY_VOLT) (hTIME : decodeKey w ≠ KEY_TIME)
    (hMASS : decodeKey w ≠ KEY_MASS) (hDATA : decodeKey w ≠ KEY_DATA) :
    massLoop file edac off (fuel+1) pos m = some (.error (.unknownKey (decodeKey w))) := by
  simp [massLoop, hw, hEOS, hEOM, hBSCAN, hB, hVOLT, hTIME, hMASS, hDATA]

/-- Exhaustive case analysis on a record key. -/
theorem key_cases (k : Nat) :
    k = KEY_EOS ∨ k = KEY_EOM ∨ k = KEY_BSCAN ∨ k = KEY_B ∨ k = KEY_VOLT ∨ k = KEY_TIME ∨
      k = KEY_MASS ∨ k = KEY_DATA ∨
      (k ≠ KEY_EOS ∧ k ≠ KEY_EOM ∧ k ≠ KEY_BSCAN ∧ k ≠ KEY_B ∧ k ≠ KEY_VOLT ∧ k ≠ KEY_TIME ∧
        k ≠ KEY_MASS ∧ k ≠ KEY_DATA) := by
  simp only [KEY_EOS, KEY_EOM, KEY_BSCAN, KEY_B, KEY_VOLT, KEY_TIME, KEY_MASS, KEY_DATA]
  omega

/-- Exhaustive case analysis on a DATA record data type. -/
theorem dataType_cases (t : Nat) :
    t = DATA_ANALOG ∨ t = DATA_PULSE ∨ t = DATA_FARADAY ∨
      (t ≠ DATA_ANALOG ∧ t ≠ DATA_PULSE ∧ t ≠ DATA_FARADAY) := by
  simp only [DATA_ANALOG, DATA_PULSE, DATA_FARADAY]
  omega

/-! ## Invariants of the Mass decoder loop -/

/-- The Mass decoder loop finishes within `k+1` iterations once `k` words
cover the rest of the file: each iteration consumes 4 bytes. -/
theorem massLoop_isSome (file : List Nat) (edac off : Nat) :
    ∀ (k pos : Nat) (m : MassR), file.length ≤ pos + 4 * k →
      (massLoop file edac off (k+1) pos m).isSome := by
  intro k
  induction k with
  | zero =>
    intro pos m h
    simp only [massLoop]
    rw [readWord_none_of_le (by omega)]
    simp
  | succ n ih =>
    intro pos m h
    cases hw : readWord file pos with
    | none => rw [massLoop, hw]; simp
    | some tmp =>
      have hn : file.length ≤ pos + 4 + 4 * n := by omega
      rcases key_cases (decodeKey tmp) with hk | hk | hk | hk | hk | hk | hk | hk | hk
      · rw [massLoop_step_eos hw hk]; simp
      · cases hd : m.duration with
        | none => rw [massLoop_step_eom_fresh hw hk hd]; simp
        | some d => rw [massLoop_step_eom_dup hw hk hd]; simp
      · rw [massLoop_step_bscan hw hk]; exact ih _ _ hn
      · rw [massLoop_step_b hw hk]; exact ih _ _ hn
      · by_cases hv : decodeValue tmp = 0
        · rw [massLoop_step_volt_zero hw hk hv]; simp
        · rw [massLoop_step_volt hw hk hv]; exact ih _ _ hn
      · cases hc : m.channelTime with
        | none => rw [massLoop_step_time_fresh hw hk hc]; exact ih _ _ hn
        | some c => rw [massLoop_step_time_dup hw hk hc]; simp
      · rw [massLoop_step_mass hw hk]; exact ih _ _ hn
      · rcases dataType_cases (dataTypeOf (decodeValue tmp)) with ht | ht | ht | ⟨h0, h1, h8⟩
        · rw [massLoop_step_data_analog hw hk ht]; exact ih _ _ hn
        · rw [massLoop_step_data_pulse hw hk ht]; exact ih _ _ hn
        · rw [massLoop_step_data_faraday hw hk ht]; exact ih _ _ hn
        · rw [massLoop_step_data_unknown hw hk h0 h1 h8]; simp
      · obtain ⟨h1, h2, h3, h4, h5, h6, h7, h8⟩ := hk
        rw [massLoop_step_unknown hw h1 h2 h3 h4 h5 h6 h7 h8]; simp

/-- A successful Mass decode ends exactly at an end-of-mass sentinel word:
the last word consumed (at `p' - 4`) has key `KEY_EOM`. -/
theorem massLoop_ok_eom (file : List Nat) (edac off : Nat) :
    ∀ (fuel pos : Nat) (m m' : MassR) (p' : Nat),
      massLoop file edac off fuel pos m = some (.ok (m', p')) →
      ∃ q w, p' = q + 4 ∧ readWord file q = some w ∧ decodeKey w = KEY_EOM := by
  intro fuel
  induction fuel with
  | zero => intro pos m m' p' h; exact absurd h (by simp [massLoop])
  | succ n ih =>
    intro pos m m' p' h
    cases hw : readWord file pos with
    | none => rw [massLoop, hw] at h; exact absurd h (by simp)
    | some tmp =>
      rcases key_cases (decodeKey tmp) with hk | hk | hk | hk | hk | hk | hk | hk | hk
      · rw [massLoop_step_eos hw hk] at h; exact absurd h (by simp)
      · cases hd : m.duration with
        | none =>
          rw [massLoop_step_eom_fresh hw hk hd] at h
          simp at h
          exact ⟨pos, tmp, by omega, hw, hk⟩
        | some d => rw [massLoop_step_eom_dup hw hk hd] at h; exact absurd h (by simp)
      · rw [massLoop_step_bscan hw hk] at h; exact ih _ _ _ _ h
      · rw [massLoop_step_b hw hk] at h; exact ih _ _ _ _ h
      · by_cases hv : decodeValue tmp = 0
        · rw [massLoop_step_volt_zero hw hk hv] at h; exact absurd h (by simp)
        · rw [massLoop_step_volt hw hk hv] at h; exact ih _ _ _ _ h
      · cases hc : m.channelTime with
        | none => rw [massLoop_step_time_fresh hw hk hc] at h; exact ih _ _ _ _ h
        | some c => rw [massLoop_step_time_dup hw hk hc] at h; exact absurd h (by simp)
      · rw [massLoop_step_mass hw hk] at h; exact ih _ _ _ _ h
      · rcases dataType_cases (dataTypeOf (decodeValue tmp)) with ht | ht | ht | ⟨h0, h1, h8⟩
        · rw [massLoop_step_data_analog hw hk ht] at h; exact ih _ _ _ _ h
        · rw [massLoop_step_data_pulse hw hk ht] at h; exact ih _ _ _ _ h
        · rw [massLoop_step_data_faraday hw hk ht] at h; exact ih _ _ _ _ h
        · rw [massLoop_step_data_unknown hw hk h0 h1 h8] at h; exact absurd h (by simp)
      · obtain ⟨h1, h2, h3, h4, h5, h6, h7, h8⟩ := hk
        rw [massLoop_step_unknown hw h1 h2 h3 h4 h5 h6 h7 h8] at h; exact absurd h (by simp)

/-- If no word of the (word-aligned) stream starting at `off` carries an
end-of-mass or end-of-scan sentinel key, the Mass decoder can never
succeed: it necessarily stops with an error. -/
theorem massLoop_no_ok_of_no_sentinel (file : List Nat) (edac off : Nat)
    (hs : ∀ j w, readWord file (off + 4 * j) = some w →
      decodeKey w ≠ KEY_EOM ∧ decodeKey w ≠ KEY_EOS) :
    ∀ (fuel j : Nat) (m m' : MassR) (p' : Nat),
      massLoop file edac off fuel (off + 4 * j) m ≠ some (.ok (m', p')) := by
  intro fuel
  induction fuel with
  | zero => intro j m m' p' h; exact absurd h (by simp [massLoop])
  | succ n ih =>
    intro j m m' p' h
    have hstep : ∀ m₂ : MassR, massLoop file edac off n (off + 4 * (j+1)) m₂ = some (.ok (m', p')) → False := by
      intro m₂ hh
      exact ih (j+1) m₂ m' p' hh
    cases hw : readWord file (off + 4 * j) with
    | none => rw [massLoop, hw] at h; exact absurd h (by simp)
    | some tmp =>
      have hns := hs j tmp hw
      have harith : off + 4 * j + 4 = off + 4 * (j + 1) := by omega
      rcases key_cases (decodeKey tmp) with hk | hk | hk | hk | hk | hk | hk | hk | hk
      · exact hns.2 hk
      · exact hns.1 hk
      · rw [massLoop_step_bscan hw hk, harith] at h; exact hstep _ h
      · rw [massLoop_step_b hw hk, harith] at h; exact hstep _ h
      · by_cases hv : decodeValue tmp = 0
        · rw [massLoop_step_volt_zero hw hk hv] at h; exact absurd h (by simp)
        · rw [massLoop_step_volt hw hk hv, harith] at h; exact hstep _ h
      · cases hc : m.channelTime with
        | none => rw [massLoop_step_time_fresh hw hk hc, harith] at h; exact hstep _ h
        | some c => rw [massLoop_step_time_dup hw hk hc] at h; exact absurd h (by simp)
      · rw [massLoop_step_mass hw hk, harith] at h; exact hstep _ h
      · rcases dataType_cases (dataTypeOf (decodeValue tmp)) with ht | ht | ht | ⟨h0, h1, h8⟩
        · rw [massLoop_step_data_analog hw hk ht, harith] at h; exact hstep _ h
        · rw [massLoop_step_data_pulse hw hk ht, harith] at h; exact hstep _ h
        · rw [massLoop_step_data_faraday hw hk ht, harith] at h; exact hstep _ h
        · rw [massLoop_step_data_unknown hw hk h0 h1 h8] at h; exact absurd h (by simp)
      · obtain ⟨h1, h2, h3, h4, h5, h6, h7, h8⟩ := hk
        rw [massLoop_step_unknown hw h1 h2 h3 h4 h5 h6 h7 h8] at h; exact absurd h (by simp)

/-- Starting from a Mass whose `duration` field is unset, the decoder can
never raise the duplicate-`duration` failure: `duration` is only assigned
by the end-of-mass word, which terminates the record at once. -/
theorem massLoop_duration_fresh (file : List Nat) (edac off : Nat) :
    ∀ (fuel pos : Nat) (m : MassR), m.duration = none →
      massLoop file edac off fuel pos m ≠ some (.error (.alreadySet "duration")) := by
  intro fuel
  induction fuel with
  | zero => intro pos m hd h; exact absurd h (by simp [massLoop])
  | succ n ih =>
    intro pos m hd h
    cases hw : readWord file pos with
    | none => rw [massLoop, hw] at h; exact absurd h (by simp)
    | some tmp =>
      rcases key_cases (decodeKey tmp) with hk | hk | hk | hk | hk | hk | hk | hk | hk
      · rw [massLoop_step_eos hw hk] at h; exact absurd h (by simp)
      · rw [massLoop_step_eom_fresh hw hk hd] at h; exact absurd h (by simp)
      · rw [massLoop_step_bscan hw hk] at h; refine ih _ _ ?_ h; exact hd
      · rw [massLoop_step_b hw hk] at h; refine ih _ _ ?_ h; exact hd
      · by_cases hv : decodeValue tmp = 0
        · rw [massLoop_step_volt_zero hw hk hv] at h; exact absurd h (by simp)
        · rw [massLoop_step_volt hw hk hv] at h; refine ih _ _ ?_ h; exact hd
      · cases hc : m.channelTime with
        | none => rw [massLoop_step_time_fresh hw hk hc] at h; refine ih _ _ ?_ h; exact hd
        | some c => rw [massLoop_step_time_dup hw hk hc] at h; exact absurd h (by simp)
      · rw [massLoop_step_mass hw hk] at h; refine ih _ _ ?_ h; exact hd
      · rcases dataType_cases (dataTypeOf (decodeValue tmp)) with ht | ht | ht | ⟨h0, h1, h8⟩
        · rw [massLoop_step_data_analog hw hk ht] at h; refine ih _ _ ?_ h; exact hd
        · rw [massLoop_step_data_pulse hw hk ht] at h; refine ih _ _ ?_ h; exact hd
        · rw [massLoop_step_data_faraday hw hk ht] at h; refine ih _ _ ?_ h; exact hd
        · rw [massLoop_step_data_unknown hw hk h0 h1 h8] at h; exact absurd h (by simp)
      · obtain ⟨h1, h2, h3, h4, h5, h6, h7, h8⟩ := hk
        rw [massLoop_step_unknown hw h1 h2 h3 h4 h5 h6 h7 h8] at h; exact absurd h (by simp)

/-- All measurements of a Mass are bounded by `(2^16 - 1) * 2^15`. -/
def MassBounded (m : MassR) : Prop :=
  (∀ v ∈ m.analog, v.natAbs ≤ (2 ^ 16 - 1) * 2 ^ 15) ∧
  (∀ v ∈ m.pulse, v.natAbs ≤ (2 ^ 16 - 1) * 2 ^ 15) ∧
  (∀ v ∈ m.faraday, v.natAbs ≤ (2 ^ 16 - 1) * 2 ^ 15)

theorem massLoop_bounded (file : List Nat) (edac off : Nat) :
    ∀ (fuel pos : Nat) (m m' : MassR) (p' : Nat), MassBounded m →
      massLoop file edac off fuel pos m = some (.ok (m', p')) → MassBounded m' := by
  intro fuel
  induction fuel with
  | zero => intro pos m m' p' hb h; exact absurd h (by simp [massLoop])
  | succ n ih =>
    intro pos m m' p' hb h
    cases hw : readWord file pos with
    | none => rw [massLoop, hw] at h; exact absurd h (by simp)
    | some tmp =>
      rcases key_cases (decodeKey tmp) with hk | hk | hk | hk | hk | hk | hk | hk | hk
      · rw [massLoop_step_eos hw hk] at h; exact absurd h (by simp)
      · cases hd : m.duration with
        | none =>
          rw [massLoop_step_eom_fresh hw hk hd] at h
          simp at h
          obtain ⟨hm, _⟩ := h
          rw [← hm]
          exact hb
        | some d => rw [massLoop_step_eom_dup hw hk hd] at h; exact absurd h (by simp)
      · rw [massLoop_step_bscan hw hk] at h; refine ih _ _ _ _ ?_ h; exact hb
      · rw [massLoop_step_b hw hk] at h; refine ih _ _ _ _ ?_ h; exact hb
      · by_cases hv : decodeValue tmp = 0
        · rw [massLoop_step_volt_zero hw hk hv] at h; exact absurd h (by simp)
        · rw [massLoop_step_volt hw hk hv] at h; refine ih _ _ _ _ ?_ h; exact hb
      · cases hc : m.channelTime with
        | none => rw [massLoop_step_time_fresh hw hk hc] at h; refine ih _ _ _ _ ?_ h; exact hb
        | some c => rw [massLoop_step_time_dup hw hk hc] at h; exact absurd h (by simp)
      · rw [massLoop_step_mass hw hk] at h; refine ih _ _ _ _ ?_ h; exact hb
      · rcases dataType_cases (dataTypeOf (decodeValue tmp)) with ht | ht | ht | ⟨h0, h1, h8⟩
        · rw [massLoop_step_data_analog hw hk ht] at h
          refine ih _ _ _ _ ?_ h
          refine ⟨?_, hb.2.1, hb.2.2⟩
          intro v hv
          rcases List.mem_append.mp hv with hv | hv
          · exact hb.1 v hv
          · simp at hv; rw [hv]; exact dataSigned_natAbs_le _
        · rw [massLoop_step_data_pulse hw hk ht] at h
          refine ih _ _ _ _ ?_ h
          refine ⟨hb.1, ?_, hb.2.2⟩
          intro v hv
          rcases List.mem_append.mp hv with hv | hv
          · exact hb.2.1 v hv
          · simp at hv; rw [hv]; exact dataSigned_natAbs_le _
        · rw [massLoop_step_data_faraday hw hk ht] at h
          refine ih _ _ _ _ ?_ h
          refine ⟨hb.1, hb.2.1, ?_⟩
          intro v hv
          rcases List.mem_append.mp hv with hv | hv
          · exact hb.2.2 v hv
          · simp at hv; rw [hv]; exact dataSigned_natAbs_le _
        · rw [massLoop_step_data_unknown hw hk h0 h1 h8] at h; exact absurd h (by simp)
      · obtain ⟨h1, h2, h3, h4, h5, h6, h7, h8⟩ := hk
        rw [massLoop_step_unknown hw h1 h2 h3 h4 h5 h6 h7 h8] at h; exact absurd h (by simp)

/-! ## Recovery-mode scan header validation -/

theorem scanHeaderRecovery_invalid_iff (vals : List Nat) (number pos fcf : Nat) :
    scanHeaderRecovery vals number pos fcf = .error .invalidScanHeader ↔
      (¬(vals.getD 3 0 = 0xD ∧ vals.getD 4 0 = 0xE ∧ vals.getD 5 0 = 0xF) ∨
        vals.getD SCAN_NUMBER 0 ≠ number) := by
  unfold scanHeaderRecovery
  split
  · rename_i hmagic
    exact iff_of_true rfl (Or.inl hmagic)
  · rename_i hmagic
    split
    · rename_i hnum
      exact iff_of_true rfl (Or.inr hnum)
    · rename_i hnum
      refine iff_of_false (by simp) ?_
      exact fun hor => hor.elim (fun hm => hm (not_not.mp hmagic)) (fun hn => hn (not_not.mp hnum))

theorem scanHeaderRecovery_ok_elim {vals : List Nat} {number pos fcf : Nat} {s : ScanR} {p' : Nat}
    (h : scanHeaderRecovery vals number pos fcf = .ok (s, p')) :
    s.number = number ∧ p' = pos + 188 ∧ s.offset = pos := by
  unfold scanHeaderRecovery at h
  split at h
  · exact absurd h (by simp)
  · split at h
    · exact absurd h (by simp)
    · rename_i hmagic hnum
      simp only [Except.ok.injEq, Prod.mk.injEq] at h
      obtain ⟨hs, hp⟩ := h
      rw [← hs, ← hp]
      refine ⟨?_, by omega, rfl⟩
      simp only [ne_eq, Decidable.not_not] at hnum
      exact hnum

theorem scanInitRecovery_invalid_iff {file vals : List Nat} {pos : Nat} (number fcf : Nat)
    (h : readWords file pos 47 = some vals) :
    scanInitRecovery file pos number fcf = .error .invalidScanHeader ↔
      (¬(vals.getD 3 0 = 0xD ∧ vals.getD 4 0 = 0xE ∧ vals.getD 5 0 = 0xF) ∨
        vals.getD SCAN_NUMBER 0 ≠ number) := by
  unfold scanInitRecovery
  rw [h]
  exact scanHeaderRecovery_invalid_iff vals number pos fcf

theorem scanInitRecovery_ok_elim {file : List Nat} {pos number fcf : Nat} {s : ScanR} {p' : Nat}
    (h : scanInitRecovery file pos number fcf = .ok (s, p')) :
    s.number = number ∧ p' = pos + 188 ∧ s.offset = pos := by
  unfold scanInitRecovery at h
  cases hr : readWords file pos 47 with
  | none => rw [hr] at h; exact absurd h (by simp)
  | some vals => rw [hr] at h; exact scanHeaderRecovery_ok_elim h

/-! ## The recovery GetScan search loop -/

theorem getScanLoop_step_ok {file : List Nat} {n fcf fuel pos : Nat} {sp : ScanR × Nat}
    (h : scanInitRecovery file pos n fcf = .ok sp) :
    getScanLoop file n fcf (fuel+1) pos = some (some sp) := by
  simp [getScanLoop, h]

theorem getScanLoop_step_invalid {file : List Nat} {n fcf fuel pos : Nat}
    (h : scanInitRecovery file pos n fcf = .error .invalidScanHeader) :
    getScanLoop file n fcf (fuel+1) pos = getScanLoop file n fcf fuel (pos+1) := by
  simp [getScanLoop, h]

theorem getScanLoop_step_other {file : List Nat} {n fcf fuel pos : Nat} {e : DatErr}
    (h : scanInitRecovery file pos n fcf = .error e) (he : e ≠ .invalidScanHeader) :
    getScanLoop file n fcf (fuel+1) pos = some none := by
  cases e
  case invalidScanHeader => exact absurd rfl he
  all_goals simp [getScanLoop, h]

/-- The recovery `GetScan` loop succeeds exactly when, after some number
`k` of single-byte resynchronization steps (each answering an
`InvalidScanHeader`), a header attempt succeeds. -/
theorem getScanLoop_some_iff (file : List Nat) (n fcf : Nat) :
    ∀ (fuel pos : Nat) (sp : ScanR × Nat),
      getScanLoop file n fcf fuel pos = some (some sp) ↔
        ∃ k, k < fuel ∧
          (∀ j, j < k → scanInitRecovery file (pos+j) n fcf = .error .invalidScanHeader) ∧
          scanInitRecovery file (pos+k) n fcf = .ok sp := by
  intro fuel
  induction fuel with
  | zero =>
    intro pos sp
    simp [getScanLoop]
  | succ f ih =>
    intro pos sp
    cases h : scanInitRecovery file pos n fcf with
    | ok sp0 =>
      rw [getScanLoop_step_ok h]
      constructor
      · intro hsp
        simp at hsp
        exact ⟨0, by omega, by omega, by rw [Nat.add_zero, h, hsp]⟩
      · rintro ⟨k, hk, hinv, hok⟩
        cases k with
        | zero =>
          rw [Nat.add_zero, h] at hok
          simp at hok
          rw [hok]
        | succ k' =>
          have := hinv 0 (by omega)
          rw [Nat.add_zero, h] at this
          exact absurd this (by simp)
    | error e =>
      by_cases he : e = .invalidScanHeader
      · subst he
        rw [getScanLoop_step_invalid h, ih (pos+1) sp]
        constructor
        · rintro ⟨k, hk, hinv, hok⟩
          refine ⟨k+1, by omega, ?_, ?_⟩
          · intro j hj
            cases j with
            | zero => rw [Nat.add_zero]; exact h
            | succ j' =>
              have := hinv j' (by omega)
              rw [show pos + 1 + j' = pos + (j' + 1) by omega] at this
              exact this
          · rw [show pos + (k + 1) = pos + 1 + k by omega]
            exact hok
        · rintro ⟨k, hk, hinv, hok⟩
          cases k with
          | zero =>
            rw [Nat.add_zero, h] at hok
            exact absurd hok (by simp)
          | succ k' =>
            refine ⟨k', by omega, ?_, ?_⟩
            · intro j hj
              have := hinv (j+1) (by omega)
              rw [show pos + (j + 1) = pos + 1 + j by omega] at this
              exact this
            · rw [show pos + 1 + k' = pos + (k' + 1) by omega]
              exact hok
      · rw [getScanLoop_step_other h he]
        refine iff_of_false (by simp) ?_
        rintro ⟨k, hk, hinv, hok⟩
        cases k with
        | zero =>
          rw [Nat.add_zero, h] at hok
          exact absurd hok (by simp)
        | succ k' =>
          have := hinv 0 (by omega)
          rw [Nat.add_zero, h] at this
          simp at this
          exact he this

/-- The recovery `GetScan` loop returns `None` (ending the scan sequence
cleanly) exactly when, after some number of single-byte
resynchronization steps, a header attempt fails with an exception other
than `InvalidScanHeader` (e.g. a short read at end-of-file). -/
theorem getScanLoop_none_iff (file : List Nat) (n fcf : Nat) :
    ∀ (fuel pos : Nat),
      getScanLoop file n fcf fuel pos = some none ↔
        ∃ k, k < fuel ∧
          (∀ j, j < k → scanInitRecovery file (pos+j) n fcf = .error .invalidScanHeader) ∧
          ∃ e, e ≠ .invalidScanHeader ∧ scanInitRecovery file (pos+k) n fcf = .error e := by
  intro fuel
  induction fuel with
  | zero =>
    intro pos
    simp [getScanLoop]
  | succ f ih =>
    intro pos
    cases h : scanInitRecovery file pos n fcf with
    | ok sp0 =>
      rw [getScanLoop_step_ok h]
      refine iff_of_false (by simp) ?_
      rintro ⟨k, hk, hinv, e, he, hok⟩
      cases k with
      | zero =>
        rw [Nat.add_zero, h] at hok
        exact absurd hok (by simp)
      | succ k' =>
        have := hinv 0 (by omega)
        rw [Nat.add_zero, h] at this
        exact absurd this (by simp)
    | error e =>
      by_cases he : e = .invalidScanHeader
      · subst he
        rw [getScanLoop_step_invalid h, ih (pos+1)]
        constructor
        · rintro ⟨k, hk, hinv, e', he', herr⟩
          refine ⟨k+1, by omega, ?_, e', he', ?_⟩
          · intro j hj
            cases j with
            | zero => rw [Nat.add_zero]; exact h
            | succ j' =>
              have := hinv j' (by omega)
              rw [show pos + 1 + j' = pos + (j' + 1) by omega] at this
              exact this
          · rw [show pos + (k + 1) = pos + 1 + k by omega]
            exact herr
        · rintro ⟨k, hk, hinv, e', he', herr⟩
          cases k with
          | zero =>
            rw [Nat.add_zero, h] at herr
            simp at herr
            exact absurd herr.symm he'
          | succ k' =>
            refine ⟨k', by omega, ?_, e', he', ?_⟩
            · intro j hj
              have := hinv (j+1) (by omega)
              rw [show pos + (j + 1) = pos + 1 + j by omega] at this
              exact this
            · rw [show pos + 1 + k' = pos + (k' + 1) by omega]
              exact herr
      · rw [getScanLoop_step_other h he]
        refine iff_of_true rfl ?_
        exact ⟨0, by omega, by omega, e, he, by rw [Nat.add_zero]; exact h⟩

/-- Any scan produced by the recovery `GetScan` loop carries exactly the
expected scan number. -/
theorem getScanLoop_number (file : List Nat) (n fcf : Nat) {fuel pos : Nat}
    {s : ScanR} {p' : Nat}
    (h : getScanLoop file n fcf fuel pos = some (some (s, p'))) : s.number = n := by
  obtain ⟨k, _, _, hok⟩ := (getScanLoop_some_iff file n fcf fuel pos (s, p')).mp h
  exact (scanInitRecovery_ok_elim hok).1

/-- The recovery iterator yields scans with consecutive scan numbers
starting at the initial expected number. -/
theorem datIterLoop_numbers (file : List Nat) (fcf : Nat) :
    ∀ (fuel pos idx : Nat) (l : List ScanR),
      datIterLoop file fcf fuel pos idx = some l →
      ∀ (i : Nat) (hi : i < l.length), (l.get ⟨i, hi⟩).number = idx + i := by
  intro fuel
  induction fuel with
  | zero =>
    intro pos idx l h
    exact absurd h (by simp [datIterLoop])
  | succ f ih =>
    intro pos idx l h
    rw [datIterLoop] at h
    cases hg : getScanLoop file idx fcf (file.length + 1) pos with
    | none => rw [hg] at h; exact absurd h (by simp)
    | some o =>
      cases o with
      | none =>
        rw [hg] at h
        dsimp only at h
        simp at h
        subst h
        intro i hi
        exact absurd hi (by simp)
      | some sp =>
        obtain ⟨s, pos'⟩ := sp
        rw [hg] at h
        dsimp only at h
        cases hrec : datIterLoop file fcf f pos' (idx+1) with
        | none => rw [hrec] at h; exact absurd h (by simp)
        | some l' =>
          rw [hrec] at h
          dsimp only at h
          simp at h
          subst h
          intro i hi
          cases i with
          | zero =>
            simpa using getScanLoop_number file idx fcf hg
          | succ i' =>
            have hi' : i' < l'.length := by simpa using hi
            have := ih pos' (idx+1) l' hrec i' hi'
            simpa [Nat.add_assoc, Nat.add_comm 1 i'] using this

/-! ## Indexed-mode scan construction and traversal -/

theorem scanInitIndexed_eq {file vals : List Nat} {off : Nat} (fcf : Nat)
    (h : readWords file off 47 = some vals) :
    scanInitIndexed file off fcf =
      .ok ({ number := vals.getD 9 0, delta := vals.getD 7 0, acf := vals.getD 12 0
           , time := vals.getD 19 0, fcf := vals.getD fcf 0, edac := vals.getD 31 0
           , offset := off + 188 }, off + 188) := by
  unfold scanInitIndexed
  rw [h]
  rfl

theorem scanInitIndexed_ok_of_read {file vals : List Nat} {off : Nat} (fcf : Nat)
    (h : readWords file off 47 = some vals) :
    ∃ s, scanInitIndexed file off fcf = .ok (s, off + 188) :=
  ⟨_, scanInitIndexed_eq fcf h⟩

theorem scanInitIndexed_ok_elim {file : List Nat} {off fcf : Nat} {sp : ScanR × Nat}
    (h : scanInitIndexed file off fcf = .ok sp) :
    sp.2 = off + 188 ∧ sp.1.offset = off + 188 := by
  unfold scanInitIndexed at h
  cases hr : readWords file off 47 with
  | none => rw [hr] at h; exact absurd h (by simp)
  | some vals =>
    rw [hr] at h
    simp at h
    rw [← h]
    exact ⟨rfl, rfl⟩

theorem scanInitIndexed_ne_outOfRange (file : List Nat) (off fcf : Nat) :
    scanInitIndexed file off fcf ≠ .error .outOfRange := by
  unfold scanInitIndexed
  cases readWords file off 47 <;> simp

theorem getScanIndexed_outOfRange {file offsets : List Nat} {fcf : Nat} {i : Int}
    (h : (offsets.length : Int) ≤ i) :
    getScanIndexed file offsets i fcf = .error .outOfRange := by
  simp [getScanIndexed, h]

theorem getScanIndexed_inRange {file offsets : List Nat} {fcf : Nat} {i : Nat}
    (h : i < offsets.length) :
    getScanIndexed file offsets (i : Int) fcf =
      scanInitIndexed file (offsets.get ⟨i, h⟩) fcf := by
  unfold getScanIndexed
  rw [if_neg (by exact_mod_cast Nat.not_le.mpr h)]
  unfold pyGet
  rw [if_pos (by positivity), Int.toNat_ofNat, List.get?_eq_get h]

theorem getScanIndexed_negative {file offsets : List Nat} {fcf : Nat} {i : Int}
    (hlow : -(offsets.length : Int) ≤ i) (hneg : i < 0) :
    getScanIndexed file offsets i fcf =
      scanInitIndexed file (offsets.getD (i + offsets.length).toNat 0) fcf := by
  unfold getScanIndexed
  rw [if_neg (by omega)]
  unfold pyGet
  rw [if_neg (by omega), if_pos (by omega)]
  have hlt : (i + offsets.length).toNat < offsets.length := by omega
  rw [List.get?_eq_get hlt, List.getD_eq_get? , List.get?_eq_get hlt]
  rfl

/-- When every indexed scan header from position `i` on decodes, the
indexed iterator yields exactly one scan per remaining index entry, in
index order. -/
theorem idxIterLoop_ok (file offsets : List Nat) (fcf : Nat) :
    ∀ (cnt i : Nat),
      (∀ j (hj : j < offsets.length), i ≤ j →
        ∃ sp, scanInitIndexed file (offsets.get ⟨j, hj⟩) fcf = .ok sp) →
      i + cnt = offsets.length →
      ∃ l, idxIterLoop file offsets fcf i cnt = .ok l ∧ l.length = cnt ∧
        ∀ t, t < cnt → ∃ off s, offsets.get? (i+t) = some off ∧ l.get? t = some s ∧
          scanInitIndexed file off fcf = .ok (s, off + 188) := by
  intro cnt
  induction cnt with
  | zero =>
    intro i hall hlen
    exact ⟨[], rfl, rfl, fun t ht => absurd ht (by omega)⟩
  | succ c ih =>
    intro i hall hlen
    have hi : i < offsets.length := by omega
    obtain ⟨sp, hsp⟩ := hall i hi (le_refl i)
    obtain ⟨hp2, _⟩ := scanInitIndexed_ok_elim hsp
    obtain ⟨s, p⟩ := sp
    simp only at hp2
    subst hp2
    obtain ⟨l', hl', hlen', hrest⟩ := ih (i+1) (fun j hj hij => hall j hj (by omega)) (by omega)
    refine ⟨s :: l', ?_, by simp [hlen'], ?_⟩
    · rw [idxIterLoop, getScanIndexed_inRange hi, hsp, hl']
    · intro t ht
      cases t with
      | zero =>
        refine ⟨offsets.get ⟨i, hi⟩, s, ?_, rfl, ?_⟩
        · rw [Nat.add_zero]; exact List.get?_eq_get hi
        · exact hsp
      | succ t' =>
        obtain ⟨off, s', h1, h2, h3⟩ := hrest t' (by omega)
        refine ⟨off, s', ?_, ?_, h3⟩
        · rw [show i + (t' + 1) = i + 1 + t' by omega]; exact h1
        · simpa using h2

/-! ## The main processing loop (indexed mode) -/

theorem mainLoop_step_abort {file offsets : List Nat} {fcf i cnt : Nat} {s : ScanR} {p : Nat}
    {nm : String}
    (hs : getScanIndexed file offsets (i : Int) fcf = .ok (s, p))
    (hm : scanMasses file s.edac (file.length + 1) s.offset = some (.error (.alreadySet nm))) :
    mainLoop file offsets fcf i (cnt+1) = some (.error (.alreadySet nm)) := by
  rw [mainLoop, hs]
  dsimp only
  rw [hm]

theorem mainLoop_step_abort_shortRead {file offsets : List Nat} {fcf i cnt : Nat} {s : ScanR}
    {p : Nat}
    (hs : getScanIndexed file offsets (i : Int) fcf = .ok (s, p))
    (hm : scanMasses file s.edac (file.length + 1) s.offset = some (.error .shortRead)) :
    mainLoop file offsets fcf i (cnt+1) = some (.error .shortRead) := by
  rw [mainLoop, hs]
  dsimp only
  rw [hm]

theorem mainLoop_step_skip_unknownKey {file offsets : List Nat} {fcf i cnt : Nat} {s : ScanR}
    {p k : Nat}
    (hs : getScanIndexed file offsets (i : Int) fcf = .ok (s, p))
    (hm : scanMasses file s.edac (file.length + 1) s.offset = some (.error (.unknownKey k))) :
    mainLoop file offsets fcf i (cnt+1) = mainLoop file offsets fcf (i+1) cnt := by
  rw [mainLoop, hs]
  dsimp only
  rw [hm]

theorem mainLoop_step_skip_unknownDataType {file offsets : List Nat} {fcf i cnt : Nat}
    {s : ScanR} {p t : Nat}
    (hs : getScanIndexed file offsets (i : Int) fcf = .ok (s, p))
    (hm : scanMasses file s.edac (file.length + 1) s.offset =
      some (.error (.unknownDataType t))) :
    mainLoop file offsets fcf i (cnt+1) = mainLoop file offsets fcf (i+1) cnt := by
  rw [mainLoop, hs]
  dsimp only
  rw [hm]

/-! ## Claim theorems -/

/-- C3: for every 32-bit record word the decoder computes
`key = word >> 28` and `value = word & 0x0FFFFFFF`; for a DATA record it
decomposes `value` into `flag = (value >> 24) & 0xF`,
`dataType = (value >> 20) & 0xF`, `exponent = (value >> 16) & 0xF` and
`magnitude = value & 0xFFFF`, and the stored signed measurement is
`magnitude << exponent`, negated exactly when `flag != 0`. -/
theorem record_word_decoder_spec (w : Nat) (hw : w < 2 ^ 32) :
    decodeKey w = w >>> 28 ∧
    decodeValue w = w &&& 0x0FFFFFFF ∧
    dataFlag (decodeValue w) = (decodeValue w >>> 24) &&& 0xF ∧
    dataTypeOf (decodeValue w) = (decodeValue w >>> 20) &&& 0xF ∧
    dataExp (decodeValue w) = (decodeValue w >>> 16) &&& 0xF ∧
    dataMag (decodeValue w) = decodeValue w &&& 0xFFFF ∧
    (dataSigned (decodeValue w) =
      if dataFlag (decodeValue w) ≠ 0 then
        -((dataMag (decodeValue w) * 2 ^ dataExp (decodeValue w) : Nat) : Int)
      else ((dataMag (decodeValue w) * 2 ^ dataExp (decodeValue w) : Nat) : Int)) ∧
    (∀ (file : List Nat) (edac off fuel pos : Nat) (m : MassR),
      readWord file pos = some w → decodeKey w = KEY_DATA →
      dataTypeOf (decodeValue w) = DATA_ANALOG →
      massLoop file edac off (fuel+1) pos m =
        massLoop file edac off fuel (pos+4)
          { m with analog := m.analog ++ [dataSigned (decodeValue w)] }) := by
  refine ⟨decodeKey_eq_shift hw, rfl, dataFlag_eq_shift _, dataTypeOf_eq_shift _,
    dataExp_eq_shift _, rfl, dataSigned_eq _, ?_⟩
  intro file edac off fuel pos m hrd hk ht
  exact massLoop_step_data_analog hrd hk ht

/-- C3 witness: the hand-computed fixture `magnitude = 5`, `exponent = 2`,
`flag = 1` decodes to `-20`, instantiated at the word `0x11020005`. -/
theorem record_word_decoder_spec_witness :
    decodeKey 0x11020005 = 0x11020005 >>> 28 ∧ dataSigned (decodeValue 0x11020005) = -20 :=
  ⟨(record_word_decoder_spec 0x11020005 (by norm_num)).1, by decide⟩

/-- C10: every measurement stored by the Mass decoder has absolute value
at most `(2^16 - 1) * 2^15`, hence lies strictly inside the signed 32-bit
integer range. -/
theorem measurement_bounds (file : List Nat) (edac off fuel : Nat) (m : MassR) (p' : Nat)
    (h : massInit file edac off fuel = some (.ok (m, p'))) :
    ∀ v : Int, (v ∈ m.analog ∨ v ∈ m.pulse ∨ v ∈ m.faraday) →
      v.natAbs ≤ (2 ^ 16 - 1) * 2 ^ 15 ∧ -(2 ^ 31) < v ∧ v < 2 ^ 31 := by
  have hb : MassBounded m := by
    refine massLoop_bounded file edac off fuel off {} m p' ?_ h
    exact ⟨by simp, by simp, by simp⟩
  intro v hv
  have hva : v.natAbs ≤ (2 ^ 16 - 1) * 2 ^ 15 := by
    rcases hv with hv | hv | hv
    · exact hb.1 v hv
    · exact hb.2.1 v hv
    · exact hb.2.2 v hv
  refine ⟨hva, ?_, ?_⟩
  · have : v.natAbs < 2 ^ 31 := by norm_num at hva ⊢; omega
    omega
  · have : v.natAbs < 2 ^ 31 := by norm_num at hva ⊢; omega
    omega

/-- C10 witness: the measurement `-20` decoded from the word `0x11020005`
followed by an end-of-mass word satisfies the bounds. -/
theorem measurement_bounds_witness :
    (-20 : Int).natAbs ≤ (2 ^ 16 - 1) * 2 ^ 15 ∧
      -(2 ^ 31) < (-20 : Int) ∧ (-20 : Int) < 2 ^ 31 :=
  measurement_bounds (bytesOfWords [0x11020005, 0x80000000]) 0 0 3
    { duration := some 0, analog := [-20], size := 8 } 8 (by decide) (-20)
    (Or.inl (by decide))

theorem scanHeaderRecovery_ok_fields {vals : List Nat} {number pos fcf : Nat} {s : ScanR}
    {p' : Nat} (h : scanHeaderRecovery vals number pos fcf = .ok (s, p')) :
    s.number = vals.getD 9 0 ∧ s.delta = vals.getD 7 0 ∧ s.acf = vals.getD 12 0 ∧
      s.time = vals.getD 19 0 ∧ s.fcf = vals.getD fcf 0 ∧ s.edac = vals.getD 31 0 := by
  unfold scanHeaderRecovery at h
  split at h
  · exact absurd h (by simp)
  · split at h
    · exact absurd h (by simp)
    · simp only [Except.ok.injEq, Prod.mk.injEq] at h
      rw [← h.1]
      exact ⟨rfl, rfl, rfl, rfl, rfl, rfl⟩

/-- C1: in recovery mode, constructing a Scan reads exactly one 47-word
(188-byte) header from the cursor and raises `InvalidScanHeader` iff the
magic words at indices 3,4,5 differ from `(0xD, 0xE, 0xF)` or the decoded
`number` (word 9) differs from the expected sequence number; nothing
beyond the header-sized read is consumed (the outcome depends only on the
47 words read). -/
theorem recovery_scan_header_validation (file : List Nat) (pos n fcfIdx : Nat)
    (vals : List Nat) (h : readWords file pos 47 = some vals) :
    (scanInitRecovery file pos n fcfIdx = .error .invalidScanHeader ↔
      (¬(vals.getD 3 0 = 0xD ∧ vals.getD 4 0 = 0xE ∧ vals.getD 5 0 = 0xF) ∨
        vals.getD 9 0 ≠ n)) ∧
    (∀ s p', scanInitRecovery file pos n fcfIdx = .ok (s, p') → p' = pos + 188) ∧
    (∀ file' : List Nat, readWords file' pos 47 = some vals →
      scanInitRecovery file' pos n fcfIdx = scanInitRecovery file pos n fcfIdx) := by
  refine ⟨scanInitRecovery_invalid_iff n fcfIdx h, ?_, ?_⟩
  · intro s p' hok
    exact (scanInitRecovery_ok_elim hok).2.1
  · intro file' h'
    unfold scanInitRecovery
    rw [h, h']

/-- C1 witness: an all-zero header (magic mismatch) is rejected with
`InvalidScanHeader`. -/
theorem recovery_scan_header_validation_witness :
    scanInitRecovery (List.replicate 188 0) 0 1 34 = .error .invalidScanHeader :=
  (recovery_scan_header_validation (List.replicate 188 0) 0 1 34 (List.replicate 47 0)
    (by decide)).1.mpr (Or.inl (by decide))

/-- C8: the Scan decoder reads a fixed 47-word (188-byte) header and
extracts `number`@9, `delta`@7, `acf`@12, `time`@19, `edac`@31 and `fcf`
at the configurable word index (34 in `RecoverDat.py`, 35 in
`ExtractDat.py`); this holds for any `fcfIdx`, in both modes. -/
theorem scan_header_field_layout (file : List Nat) (off fcfIdx n : Nat) (vals : List Nat)
    (h : readWords file off 47 = some vals) :
    vals.length = 47 ∧
    scanInitIndexed file off fcfIdx =
      .ok ({ number := vals.getD 9 0, delta := vals.getD 7 0, acf := vals.getD 12 0
           , time := vals.getD 19 0, fcf := vals.getD fcfIdx 0, edac := vals.getD 31 0
           , offset := off + 188 }, off + 188) ∧
    (∀ s p', scanInitRecovery file off n fcfIdx = .ok (s, p') →
      p' = off + 188 ∧ s.number = vals.getD 9 0 ∧ s.delta = vals.getD 7 0 ∧
        s.acf = vals.getD 12 0 ∧ s.time = vals.getD 19 0 ∧ s.fcf = vals.getD fcfIdx 0 ∧
        s.edac = vals.getD 31 0) ∧
    EXTRACT_SCAN_FCF = 35 ∧ RECOVER_SCAN_FCF = 34 := by
  refine ⟨readWords_length h, scanInitIndexed_eq fcfIdx h, ?_, rfl, rfl⟩
  intro s p' hok
  have hok' : scanHeaderRecovery vals n off fcfIdx = .ok (s, p') := by
    unfold scanInitRecovery at hok
    rw [h] at hok
    exact hok
  exact ⟨(scanHeaderRecovery_ok_elim hok').2.1, scanHeaderRecovery_ok_fields hok'⟩

/-- C8 witness: decoding the header whose 47 words are `0, 1, ..., 46`
returns each field equal to its own word index. -/
theorem scan_header_field_layout_witness :
    scanInitIndexed (bytesOfWords (List.range 47)) 0 35 =
      .ok ({ number := 9, delta := 7, acf := 12, time := 19, fcf := 35, edac := 31
           , offset := 188 }, 188) :=
  ((scan_header_field_layout (bytesOfWords (List.range 47)) 0 35 1 (List.range 47)
    (by decide)).2.1).trans (by decide)

/-- C9: the indexed-mode bounds check is one-sided: a negative index `i`
with `-NumScans() ≤ i < 0` is not rejected as out-of-range; instead the
scan at `offsets[NumScans() + i]` is decoded (Python negative indexing). -/
theorem negative_index_wraps (file offsets : List Nat) (fcf : Nat) (i : Int)
    (hlow : -(offsets.length : Int) ≤ i) (hneg : i < 0) :
    getScanIndexed file offsets i fcf ≠ .error .outOfRange ∧
    getScanIndexed file offsets i fcf =
      scanInitIndexed file (offsets.getD ((offsets.length : Int) + i).toNat 0) fcf := by
  have heq := @getScanIndexed_negative file offsets fcf i hlow hneg
  have hidx : ((offsets.length : Int) + i).toNat = (i + (offsets.length : Int)).toNat := by
    omega
  constructor
  · rw [heq]
    exact scanInitIndexed_ne_outOfRange file _ fcf
  · rw [heq, hidx]

/-- C9 witness: with two index entries `[0, 4]`, index `-1` decodes the
scan at `offsets[1] = 4`. -/
theorem negative_index_wraps_witness :
    getScanIndexed (bytesOfWords (List.range 48)) [0, 4] (-1) 35 =
      scanInitIndexed (bytesOfWords (List.range 48)) 4 35 :=
  ((negative_index_wraps (bytesOfWords (List.range 48)) [0, 4] 35 (-1) (by decide)
    (by decide)).2).trans (by decide)

/-- C6: in indexed mode `GetScan(i)` with `0 ≤ i < indexLength` decodes
the scan at `offsets[i]` with no header-magic validation (any readable
47-word header is accepted); `i ≥ indexLength` raises out-of-range; and
iterating a file whose index has N decodable entries yields exactly N
scans, in index order. -/
theorem indexed_traversal_spec (file offsets : List Nat) (fcf : Nat) :
    (∀ i : Nat, offsets.length ≤ i →
      getScanIndexed file offsets (i : Int) fcf = .error .outOfRange) ∧
    (∀ (i : Nat) (h : i < offsets.length),
      getScanIndexed file offsets (i : Int) fcf =
        scanInitIndexed file (offsets.get ⟨i, h⟩) fcf) ∧
    (∀ off vals, readWords file off 47 = some vals →
      ∃ s, scanInitIndexed file off fcf = .ok (s, off + 188)) ∧
    ((∀ j (hj : j < offsets.length),
        ∃ sp, scanInitIndexed file (offsets.get ⟨j, hj⟩) fcf = .ok sp) →
      ∃ l, idxIter file offsets fcf = .ok l ∧ l.length = offsets.length ∧
        ∀ t, t < offsets.length → ∃ off s, offsets.get? t = some off ∧ l.get? t = some s ∧
          scanInitIndexed file off fcf = .ok (s, off + 188)) := by
  refine ⟨?_, ?_, ?_, ?_⟩
  · intro i hi
    exact getScanIndexed_outOfRange (by exact_mod_cast hi)
  · intro i h
    exact getScanIndexed_inRange h
  · intro off vals h
    exact scanInitIndexed_ok_of_read fcf h
  · intro hall
    obtain ⟨l, h1, h2, h3⟩ :=
      idxIterLoop_ok file offsets fcf offsets.length 0 (fun j hj _ => hall j hj) (by omega)
    refine ⟨l, h1, h2, ?_⟩
    intro t ht
    simpa using h3 t ht

/-- C6 witness: a two-entry index over a 192-byte file yields exactly the
two scans, in index order, and index 2 is out of range. -/
theorem indexed_traversal_spec_witness :
    getScanIndexed (bytesOfWords (List.range 48)) [0, 4] (2 : Nat) 35 =
      .error .outOfRange :=
  (indexed_traversal_spec (bytesOfWords (List.range 48)) [0, 4] 35).1 2 (by decide)

/-- C4 counterexample: a Mass stream with two magnet-mass words decodes
successfully — the second word silently overwrites `magnetMass` (no
decode error is raised), contradicting the claim that all four scalar
fields are set-once-guarded. -/
theorem set_once_fields_cex :
    massInit (bytesOfWords [0x20000001, 0x20000002, 0x80000005]) 7 0 10 =
      some (.ok ({ magnetMass := some (((2 : Nat) : Rat) / 2 ^ 18), duration := some 5
                 , size := 12 }, 12)) := by
  rfl

/-- C4 (amended): only `channelTime` and `duration` are set-once guarded —
a second occurrence raises the `already set` failure; `magnetMass` is
assigned directly on every occurrence and `acceleratingVoltage` on every
occurrence with a nonzero value field, silently overwriting any earlier
value (a zero value raises `ZeroDivisionError` instead of assigning). -/
theorem set_once_fields_amended (file : List Nat) (edac off fuel pos : Nat) (m : MassR)
    (w : Nat) (hw : readWord file pos = some w) :
    (decodeKey w = KEY_MASS →
      massLoop file edac off (fuel+1) pos m =
        massLoop file edac off fuel (pos+4)
          { m with magnetMass := some ((decodeValue w : Rat) / 2 ^ 18) }) ∧
    (decodeKey w = KEY_VOLT → decodeValue w ≠ 0 →
      massLoop file edac off (fuel+1) pos m =
        massLoop file edac off fuel (pos+4)
          { m with acceleratingVoltage := some ((edac * 1000 : Rat) / (decodeValue w : Rat) / 2 ^ 18) }) ∧
    (decodeKey w = KEY_VOLT → decodeValue w = 0 →
      massLoop file edac off (fuel+1) pos m = some (.error .zeroDivision)) ∧
    (decodeKey w = KEY_TIME → m.channelTime = none →
      massLoop file edac off (fuel+1) pos m =
        massLoop file edac off fuel (pos+4) { m with channelTime := some (decodeValue w) }) ∧
    (decodeKey w = KEY_TIME → ∀ c, m.channelTime = some c →
      massLoop file edac off (fuel+1) pos m = some (.error (.alreadySet "channelTime"))) ∧
    (decodeKey w = KEY_EOM → m.duration = none →
      massLoop file edac off (fuel+1) pos m =
        some (.ok ({ m with duration := some (decodeValue w), size := pos + 4 - off }, pos + 4))) ∧
    (decodeKey w = KEY_EOM → ∀ d, m.duration = some d →
      massLoop file edac off (fuel+1) pos m = some (.error (.alreadySet "duration"))) := by
  refine ⟨?_, ?_, ?_, ?_, ?_, ?_, ?_⟩
  · intro hk; exact massLoop_step_mass hw hk
  · intro hk hv; exact massLoop_step_volt hw hk hv
  · intro hk hv; exact massLoop_step_volt_zero hw hk hv
  · intro hk hc; exact massLoop_step_time_fresh hw hk hc
  · intro hk c hc; exact massLoop_step_time_dup hw hk hc
  · intro hk hd; exact massLoop_step_eom_fresh hw hk hd
  · intro hk d hd; exact massLoop_step_eom_dup hw hk hd

/-- C4 witness: a channel-time word arriving when `channelTime` is already
set raises the duplicate-field failure. -/
theorem set_once_fields_amended_witness :
    massLoop (bytesOfWords [0x30000001]) 0 0 4 0 { channelTime := some 7 } =
      some (.error (.alreadySet "channelTime")) :=
  (set_once_fields_amended (bytesOfWords [0x30000001]) 0 0 3 0 { channelTime := some 7 }
    0x30000001 (by decide)).2.2.2.2.1 (by decide) 7 rfl

set_option maxRecDepth 40000 in
/-- C5 counterexample: a file whose single indexed scan contains a Mass
with two channel-time words makes the whole traversal abort with the
duplicate-field exception — the scan is not skipped and traversal does
not continue, unlike the handling of `UnknownKey`. -/
theorem duplicate_field_cex :
    processDat (bytesOfWords (List.replicate 47 0 ++ [0x30000001, 0x30000002])) [0] 35 =
      some (.error (.alreadySet "channelTime")) := by
  decide

/-- C5 (amended): a duplicate-field failure (`channelTime` set twice) is a
plain exception that, unlike `UnknownKey`/`UnknownDataType`, is not
caught by the traversal loop: it aborts the whole traversal instead of
skipping the scan.  A duplicate `duration` failure can never arise, since
`duration` is only assigned by the end-of-mass word, which terminates the
record at once. -/
theorem duplicate_field_handling (file offsets : List Nat) (fcf i cnt : Nat) (s : ScanR)
    (p : Nat) (hs : getScanIndexed file offsets (i : Int) fcf = .ok (s, p)) :
    (∀ nm, scanMasses file s.edac (file.length + 1) s.offset = some (.error (.alreadySet nm)) →
      mainLoop file offsets fcf i (cnt+1) = some (.error (.alreadySet nm))) ∧
    (∀ k, scanMasses file s.edac (file.length + 1) s.offset = some (.error (.unknownKey k)) →
      mainLoop file offsets fcf i (cnt+1) = mainLoop file offsets fcf (i+1) cnt) ∧
    (∀ t, scanMasses file s.edac (file.length + 1) s.offset =
        some (.error (.unknownDataType t)) →
      mainLoop file offsets fcf i (cnt+1) = mainLoop file offsets fcf (i+1) cnt) ∧
    (∀ (edac off fuel : Nat),
      massInit file edac off fuel ≠ some (.error (.alreadySet "duration"))) := by
  refine ⟨?_, ?_, ?_, ?_⟩
  · intro nm hm; exact mainLoop_step_abort hs hm
  · intro k hm; exact mainLoop_step_skip_unknownKey hs hm
  · intro t hm; exact mainLoop_step_skip_unknownDataType hs hm
  · intro edac off fuel
    exact massLoop_duration_fresh file edac off fuel off {} rfl

set_option maxRecDepth 40000 in
/-- C5 witness: on a concrete file whose scan has a duplicate channel-time
Mass, the main loop aborts with the duplicate-field exception. -/
theorem duplicate_field_handling_witness :
    mainLoop (bytesOfWords (List.replicate 47 1 ++ [0x30000005, 0x30000006])) [0] 35 0 1 =
      some (.error (.alreadySet "channelTime")) :=
  (duplicate_field_handling (bytesOfWords (List.replicate 47 1 ++ [0x30000005, 0x30000006]))
    [0] 35 0 0
    { number := 1, delta := 1, acf := 1, time := 1, fcf := 1, edac := 1, offset := 188 }
    188 (by decide)).1 "channelTime" (by decide)

set_option maxRecDepth 40000 in
/-- C7 counterexample: a scan whose Mass stream has no sentinel word
before end-of-file makes the whole traversal abort with the short-read
exception (`struct.error`), which no driver catches — not a handled
end-of-sequence. -/
theorem missing_sentinel_cex :
    processDat (bytesOfWords (List.replicate 47 0 ++ [0x11020005])) [0] 35 =
      some (.error .shortRead) := by
  decide

/-- C7 (amended): decoding one Mass record always terminates — it
consumes successive words until a sentinel key (`EOM` 0x8 or `EOS` 0xF)
or a decode error: the loop finishes within `length + 1` iterations, a
successful decode ends exactly at an `EOM` word, and on a stream with no
sentinel the decoder can only end in an error (which the traversal
drivers do not catch), never an infinite loop. -/
theorem mass_decode_terminates (file : List Nat) (edac off : Nat) :
    (massInit file edac off (file.length + 1)).isSome ∧
    (∀ fuel (m : MassR) (p' : Nat), massInit file edac off fuel = some (.ok (m, p')) →
      ∃ q w, p' = q + 4 ∧ readWord file q = some w ∧ decodeKey w = KEY_EOM) ∧
    ((∀ j w, readWord file (off + 4 * j) = some w →
        decodeKey w ≠ KEY_EOM ∧ decodeKey w ≠ KEY_EOS) →
      ∀ fuel (m : MassR) (p' : Nat), massInit file edac off fuel ≠ some (.ok (m, p'))) := by
  refine ⟨?_, ?_, ?_⟩
  · exact massLoop_isSome file edac off file.length off {} (by omega)
  · intro fuel m p' h
    exact massLoop_ok_eom file edac off fuel off {} m p' h
  · intro hs fuel m p' h
    have h0 : massLoop file edac off fuel (off + 4 * 0) {} = some (.ok (m, p')) := by
      simpa using h
    exact massLoop_no_ok_of_no_sentinel file edac off hs fuel 0 {} m p' h0

/-- C7 witness: a successfully decoded two-word Mass record ends at its
end-of-mass sentinel. -/
theorem mass_decode_terminates_witness :
    ∃ q w, 8 = q + 4 ∧ readWord (bytesOfWords [0x30000001, 0x80000002]) q = some w ∧
      decodeKey w = KEY_EOM :=
  (mass_decode_terminates (bytesOfWords [0x30000001, 0x80000002]) 0 0).2.1 3
    { channelTime := some 1, duration := some 2, size := 8 } 8 (by decide)

/-- C2: the recovery traversal driver records the cursor before each
header attempt; on `InvalidScanHeader` it advances to exactly the
recorded position + 1 and retries (so a success is preceded by a run of
single-byte resynchronizations, all failing with `InvalidScanHeader`); on
any other failure it ends the scan sequence cleanly (`None`, end of
iteration); on success it yields the Scan and increments the expected
scan number, which starts at 1: the i-th yielded scan has number
`1 + i`. -/
theorem recovery_driver_spec (file : List Nat) (fcf : Nat) :
    (∀ (fuel pos n : Nat) (sp : ScanR × Nat),
      getScanLoop file n fcf fuel pos = some (some sp) ↔
        ∃ k, k < fuel ∧
          (∀ j, j < k → scanInitRecovery file (pos+j) n fcf = .error .invalidScanHeader) ∧
          scanInitRecovery file (pos+k) n fcf = .ok sp) ∧
    (∀ (fuel pos n : Nat),
      getScanLoop file n fcf fuel pos = some none ↔
        ∃ k, k < fuel ∧
          (∀ j, j < k → scanInitRecovery file (pos+j) n fcf = .error .invalidScanHeader) ∧
          ∃ e, e ≠ .invalidScanHeader ∧ scanInitRecovery file (pos+k) n fcf = .error e) ∧
    (∀ (fuel pos idx : Nat) (l : List ScanR),
      datIterLoop file fcf fuel pos idx = some l →
      ∀ (i : Nat) (hi : i < l.length), (l.get ⟨i, hi⟩).number = idx + i) ∧
    (∀ (fuel : Nat) (l : List ScanR) (dat : DatFileR),
      datFileInit file = .ok dat → recoverScans file fuel = some (.ok l) →
      ∀ (i : Nat) (hi : i < l.length), (l.get ⟨i, hi⟩).number = 1 + i) := by
  refine ⟨?_, ?_, datIterLoop_numbers file fcf, ?_⟩
  · intro fuel pos n sp
    exact getScanLoop_some_iff file n fcf fuel pos sp
  · intro fuel pos n
    exact getScanLoop_none_iff file n fcf fuel pos
  · intro fuel l dat h1 h2 i hi
    unfold recoverScans at h2
    rw [h1] at h2
    dsimp only at h2
    cases hit : datIterLoop file RECOVER_SCAN_FCF fuel dat.endOfHeader 1 with
    | none => rw [hit] at h2; exact absurd h2 (by simp)
    | some l' =>
      rw [hit] at h2
      simp at h2
      subst h2
      exact datIterLoop_numbers file RECOVER_SCAN_FCF fuel dat.endOfHeader 1 l' hit i hi

set_option maxRecDepth 200000 in
/-- C2 witness: a file with an all-zero header, one junk byte, and one
valid scan header with number 1: recovery traversal resynchronizes past
the junk byte and yields exactly that scan, numbered `1 + 0`. -/
theorem recovery_driver_spec_witness :
    recoverScans
        (List.replicate 356 0 ++ [9] ++
          bytesOfWords ([0, 0, 0, 0xD, 0xE, 0xF, 0, 0, 0, 1] ++ List.replicate 37 0)) 3 =
      some (.ok [⟨1, 0, 0, 0, 0, 0, 357⟩]) ∧
    (([⟨1, 0, 0, 0, 0, 0, 357⟩] : List ScanR).get ⟨0, by decide⟩).number = 1 + 0 := by
  refine ⟨by decide, ?_⟩
  exact (recovery_driver_spec
      (List.replicate 356 0 ++ [9] ++
        bytesOfWords ([0, 0, 0, 0xD, 0xE, 0xF, 0, 0, 0, 1] ++ List.replicate 37 0))
      34).2.2.2 3 [⟨1, 0, 0, 0, 0, 0, 357⟩]
    { timestamp := 0, indexLen := 0, indexOffset := 0, offsets := [], endOfHeader := 356 }
    (by decide) (by decide) 0 (by decide)
